import Mathlib

/-!
Verification of the MetadataExchange TCP filter
(`src/envoy/tcp/metadata_exchange/metadata_exchange.h`).

The repository ships the header only: the data model (the `conn_state_` enum,
the stats counters, `FilterDirection`, the dynamic-metadata keys, and the
constructor's initial values) is embedded from the header; the bodies of the
callbacks (`onData`, `onWrite`, `onNewConnection`, `tryReadInitialProxyHeader`,
`tryReadProxyData`) are not part of the repository and are modelled from the
specification, as marked on each definition.
-/

namespace MetadataExchange

/-- Direction of the flow of traffic in which this MetadataExchange filter is
placed (source: `enum FilterDirection { Downstream, Upstream }`). -/
inductive FilterDirection where
  | Downstream
  | Upstream
deriving DecidableEq, Repr

/-- The per-connection protocol state (source: the anonymous enum of the
`conn_state_` member, lines 160-169). -/
inductive ConnState where
  | ConnProtocolNotRead
  | WriteMetadata
  | ReadingInitialHeader
  | ReadingProxyHeader
  | NeedMoreDataInitialHeader
  | NeedMoreDataProxyHeader
  | Done
  | Invalid
deriving DecidableEq, Repr

/-- All MetadataExchange filter stats (source: `ALL_METADATA_EXCHANGE_STATS`),
modelled as per-connection counter values. -/
structure MetadataExchangeStats where
  alpn_protocol_not_found : Nat
  alpn_protocol_found : Nat
  initial_header_not_found : Nat
  header_not_found : Nat
  metadata_added : Nat
deriving DecidableEq, Repr

/-- Counters at the beginning of a connection. -/
def MetadataExchangeStats.zero : MetadataExchangeStats := ⟨0, 0, 0, 0, 0⟩

/-- Sum of all five counters of one connection. -/
def statsTotal (c : MetadataExchangeStats) : Nat :=
  c.alpn_protocol_not_found + c.alpn_protocol_found + c.initial_header_not_found +
    c.header_not_found + c.metadata_added

/-- Modelled from the spec: the metadata payload is "a generic string-keyed
structured value" (a `google.protobuf.Struct` in the source's comments; its
codec is outside this repository).  It is modelled as an association list of
byte-string keys and byte-string values. -/
abbrev NodeMetadata := List (List Nat × List Nat)

/-- Configuration for the MetadataExchange filter (source:
`MetadataExchangeConfig`).  The stats scope and stat-name strings are omitted:
counters are modelled directly as per-connection numbers. -/
structure MetadataExchangeConfig where
  protocol_ : String
  node_metadata_id_ : String
  filter_direction_ : FilterDirection
deriving DecidableEq, Repr

/-- The per-connection dynamic-metadata side channel, a bag keyed by string
(source: `setMetadata` / `getMetadata` helpers). -/
structure DynamicMetadata where
  entries : List (String × NodeMetadata)
deriving DecidableEq, Repr

/-- Store a value in the dynamic-metadata bag. -/
def setMetadata (dm : DynamicMetadata) (key : String) (value : NodeMetadata) :
    DynamicMetadata :=
  ⟨(key, value) :: dm.entries⟩

/-- Retrieve a value from the dynamic-metadata bag; absent when never set. -/
def getMetadata (dm : DynamicMetadata) (key : String) : Option NodeMetadata :=
  (dm.entries.find? (fun p => p.1 == key)).map (fun p => p.2)

/-- Key identifier for dynamic metadata in an upstream filter (source
lines 150-151). -/
def UpstreamDynamicDataKey : String := "filters.network.metadata_exchange.upstream"

/-- Key identifier for dynamic metadata in a downstream filter (source
lines 153-154). -/
def DownstreamDynamicDataKey : String := "filters.network.metadata_exchange.downstream"

/-- The dynamic-metadata key selected by the configured filter direction. -/
def dynamicDataKey : FilterDirection → String
  | .Downstream => DownstreamDynamicDataKey
  | .Upstream => UpstreamDynamicDataKey

/-- Modelled from the spec: the fixed protocol magic constant (the source keeps
it with the `MetadataExchangeInitialHeader` wire struct, outside this header
file).  Its concrete value is irrelevant to the claims. -/
def MagicNumber : Nat := 0x3D230467

/-- Byte size of the fixed initial header: 4 magic bytes and 4 length bytes
(spec, "External interfaces"). -/
def InitialHeaderSize : Nat := 8

/-- Big-endian 4-byte encoding of an unsigned integer (network byte order). -/
def encNat32 (n : Nat) : List Nat :=
  [n / 2 ^ 24 % 256, n / 2 ^ 16 % 256, n / 2 ^ 8 % 256, n % 256]

/-- Byte of a buffer at an index, 0 past the end. -/
def byteAt (l : List Nat) (i : Nat) : Nat := l.getD i 0

/-- Big-endian 4-byte decoding from the front of a buffer. -/
def decNat32 (l : List Nat) : Nat :=
  ((byteAt l 0 * 256 + byteAt l 1) * 256 + byteAt l 2) * 256 + byteAt l 3

/-- Modelled from the spec: serialization of the structured value, a
length-delimited encoding of each key/value pair. -/
def serFields : NodeMetadata → List Nat
  | [] => []
  | (k, v) :: rest => k.length :: (k ++ v.length :: (v ++ serFields rest))

/-- Fuel-indexed deserializer; the fuel only bounds the recursion depth and is
always sufficient when instantiated with the input length. -/
def deserFieldsAux : Nat → List Nat → Option NodeMetadata
  | _, [] => some []
  | 0, _ :: _ => none
  | fuel + 1, kl :: rest =>
      if rest.length < kl + 1 then none
      else
        let k := rest.take kl
        let vl := byteAt rest kl
        let rest2 := rest.drop (kl + 1)
        if rest2.length < vl then none
        else
          match deserFieldsAux fuel (rest2.drop vl) with
          | none => none
          | some fs => some ((k, rest2.take vl) :: fs)

/-- Modelled from the spec: deserialization of the structured value; fails on
malformed input, and consumes the given bytes exactly. -/
def deserFields (l : List Nat) : Option NodeMetadata := deserFieldsAux l.length l

/-- A MetadataExchange filter instance, one per connection (source:
`MetadataExchangeFilter`).  The stats counters and the connection's
dynamic-metadata bag are carried in the state so the side effects of the
callbacks are observable. -/
structure FilterState where
  config_ : MetadataExchangeConfig
  local_info_ : NodeMetadata
  conn_state_ : ConnState
  proxy_data_length_ : Nat
  stats : MetadataExchangeStats
  dynamic_metadata : DynamicMetadata
deriving DecidableEq, Repr

/-- The constructor (source lines 96-100 and 147): the connection state starts
at `ConnProtocolNotRead` and `proxy_data_length_` starts at 0. -/
def mkMetadataExchangeFilter (config : MetadataExchangeConfig)
    (local_info : NodeMetadata) : FilterState :=
  { config_ := config
    local_info_ := local_info
    conn_state_ := .ConnProtocolNotRead
    proxy_data_length_ := 0
    stats := MetadataExchangeStats.zero
    dynamic_metadata := ⟨[]⟩ }

/-- Modelled from the spec: tries to read the initial proxy header at the front
of the data.  It needs `InitialHeaderSize` bytes (else it records the need for
more data), verifies the magic (else `Invalid` and `initial_header_not_found`),
and on success drains the header bytes and records the declared payload
length. -/
def tryReadInitialProxyHeader (s : FilterState) (data : List Nat) :
    FilterState × List Nat :=
  if data.length < InitialHeaderSize then
    ({ s with conn_state_ := .NeedMoreDataInitialHeader }, data)
  else if decNat32 data ≠ MagicNumber then
    ({ s with
        conn_state_ := .Invalid
        stats := { s.stats with
          initial_header_not_found := s.stats.initial_header_not_found + 1 } }, data)
  else
    ({ s with
        conn_state_ := .ReadingProxyHeader
        proxy_data_length_ := decNat32 (data.drop 4) },
      data.drop InitialHeaderSize)

/-- Modelled from the spec: tries to read the proxy data after the initial
header.  It needs `proxy_data_length_` bytes (else it records the need for more
data); once available it drains exactly that many bytes and decodes them: on
success the value is published under the direction's dynamic-metadata key and
`metadata_added` fires; on decode failure the state becomes `Invalid` and
`header_not_found` fires. -/
def tryReadProxyData (s : FilterState) (data : List Nat) : FilterState × List Nat :=
  if data.length < s.proxy_data_length_ then
    ({ s with conn_state_ := .NeedMoreDataProxyHeader }, data)
  else
    match deserFields (data.take s.proxy_data_length_) with
    | some value =>
        ({ s with
            conn_state_ := .Done
            dynamic_metadata := setMetadata s.dynamic_metadata
              (dynamicDataKey s.config_.filter_direction_) value
            stats := { s.stats with metadata_added := s.stats.metadata_added + 1 } },
          data.drop s.proxy_data_length_)
    | none =>
        ({ s with
            conn_state_ := .Invalid
            stats := { s.stats with
              header_not_found := s.stats.header_not_found + 1 } },
          data.drop s.proxy_data_length_)

/-- Result of one read callback: the new filter state, the bytes forwarded
downstream, and the bytes retained by the runtime for the next callback. -/
structure DataResult where
  state : FilterState
  forwarded : List Nat
  retained : List Nat
deriving DecidableEq, Repr

/-- The payload-reading phase of the read callback: bytes are retained while
more data is needed, and forwarded once the machine is `Done` or `Invalid`. -/
def onDataProxy (s : FilterState) (data : List Nat) : DataResult :=
  let r := tryReadProxyData s data
  match r.1.conn_state_ with
  | .NeedMoreDataProxyHeader => ⟨r.1, [], r.2⟩
  | _ => ⟨r.1, r.2, []⟩

/-- The header-reading phase of the read callback; on a complete valid header
it continues with the payload phase in the same callback. -/
def onDataHeader (s : FilterState) (data : List Nat) : DataResult :=
  let r := tryReadInitialProxyHeader s data
  match r.1.conn_state_ with
  | .NeedMoreDataInitialHeader => ⟨r.1, [], r.2⟩
  | .ReadingProxyHeader => onDataProxy r.1 r.2
  | _ => ⟨r.1, r.2, []⟩

/-- Modelled from the spec: the read callback.  Parsing happens only in the
four reading states; in `Done` and `Invalid` (and before the protocol phase)
all bytes pass through unmodified. -/
def onData (s : FilterState) (data : List Nat) : DataResult :=
  match s.conn_state_ with
  | .ReadingInitialHeader => onDataHeader s data
  | .NeedMoreDataInitialHeader => onDataHeader s data
  | .ReadingProxyHeader => onDataProxy s data
  | .NeedMoreDataProxyHeader => onDataProxy s data
  | _ => ⟨s, data, []⟩

/-- Modelled from the spec: the ALPN gate at connection start.  On a match the
machine moves to `WriteMetadata` and `alpn_protocol_found` fires; otherwise the
machine becomes `Invalid` (inert pass-through) and `alpn_protocol_not_found`
fires. -/
def onNewConnection (s : FilterState) (alpn : String) : FilterState :=
  match s.conn_state_ with
  | .ConnProtocolNotRead =>
      if alpn = s.config_.protocol_ then
        { s with
            conn_state_ := .WriteMetadata
            stats := { s.stats with
              alpn_protocol_found := s.stats.alpn_protocol_found + 1 } }
      else
        { s with
            conn_state_ := .Invalid
            stats := { s.stats with
              alpn_protocol_not_found := s.stats.alpn_protocol_not_found + 1 } }
  | _ => s

/-- The serialized local metadata block: initial header, then payload. -/
def metadataBlock (lm : NodeMetadata) : List Nat :=
  encNat32 MagicNumber ++ encNat32 (serFields lm).length ++ serFields lm

/-- Modelled from the spec: the write callback; in `WriteMetadata` state the
local metadata block is emitted in front of the outbound data exactly once,
after which the machine moves on to reading the peer's header. -/
def onWrite (s : FilterState) (data : List Nat) : FilterState × List Nat :=
  match s.conn_state_ with
  | .WriteMetadata =>
      ({ s with conn_state_ := .ReadingInitialHeader },
        metadataBlock s.local_info_ ++ data)
  | _ => (s, data)

/-- Drives a sequence of read callbacks the way the runtime does: each inbound
fragment is appended to the bytes retained so far and handed to `onData`;
forwarded bytes accumulate in order. -/
def runReads (s : FilterState) (retained : List Nat) :
    List (List Nat) → DataResult
  | [] => ⟨s, [], retained⟩
  | f :: rest =>
      let r := onData s (retained ++ f)
      let q := runReads r.state r.retained rest
      ⟨q.state, r.forwarded ++ q.forwarded, q.retained⟩

/-- Continuing a read result with more inbound bytes. -/
def seqData (r : DataResult) (b : List Nat) : DataResult :=
  let q := onData r.state (r.retained ++ b)
  ⟨q.state, r.forwarded ++ q.forwarded, q.retained⟩

/-- Drives a sequence of write callbacks, returning the final state, the
outbound buffers, and how many times the metadata-emission branch fired. -/
def runWrites (s : FilterState) :
    List (List Nat) → FilterState × List (List Nat) × Nat
  | [] => (s, [], 0)
  | f :: rest =>
      let e := if s.conn_state_ = ConnState.WriteMetadata then 1 else 0
      let p := onWrite s f
      let q := runWrites p.1 rest
      (q.1, p.2 :: q.2.1, e + q.2.2)

/-- Forward progress rank of the connection states: the two need-more-data
states share the rank of the state that requested them, and the two terminal
states share the top rank. -/
def stateRank : ConnState → Nat
  | .ConnProtocolNotRead => 0
  | .WriteMetadata => 1
  | .ReadingInitialHeader => 2
  | .NeedMoreDataInitialHeader => 2
  | .ReadingProxyHeader => 3
  | .NeedMoreDataProxyHeader => 3
  | .Done => 4
  | .Invalid => 4

/-! ### Codec lemmas -/

theorem decNat32_enc (n : Nat) (rest : List Nat) (h : n < 2 ^ 32) :
    decNat32 (encNat32 n ++ rest) = n := by
  simp [decNat32, encNat32, byteAt]
  omega

theorem encNat32_length (n : Nat) : (encNat32 n).length = 4 := rfl

theorem serFields_length (fs : NodeMetadata) : fs.length ≤ (serFields fs).length := by
  induction fs with
  | nil => simp [serFields]
  | cons p rest ih =>
      obtain ⟨k, v⟩ := p
      simp only [serFields, List.length_cons, List.length_append]
      omega

theorem deserFieldsAux_serFields (fs : NodeMetadata) (fuel : Nat)
    (h : fs.length ≤ fuel) : deserFieldsAux fuel (serFields fs) = some fs := by
  induction fs generalizing fuel with
  | nil => cases fuel <;> simp [serFields, deserFieldsAux]
  | cons p rest ih =>
      obtain ⟨k, v⟩ := p
      match fuel with
      | 0 => simp at h
      | fuel + 1 =>
          have hrest : rest.length ≤ fuel := by
            simpa [Nat.succ_le_succ_iff] using h
          have htk : (k ++ (v.length :: (v ++ serFields rest))).take k.length = k :=
            List.take_left k _
          have hbv : byteAt (k ++ (v.length :: (v ++ serFields rest))) k.length =
              v.length := by
            unfold byteAt
            rw [List.getD_append_right _ _ _ _ (Nat.le_refl _), Nat.sub_self]
            rfl
          have hd1 : (k ++ (v.length :: (v ++ serFields rest))).drop (k.length + 1) =
              v ++ serFields rest := by
            rw [List.drop_append_eq_append_drop]
            simp
          have hdv : (v ++ serFields rest).drop v.length = serFields rest :=
            List.drop_left v _
          have htv : (v ++ serFields rest).take v.length = v := List.take_left v _
          simp only [serFields, deserFieldsAux]
          rw [if_neg (by simp only [List.length_append, List.length_cons]; omega)]
          rw [htk, hbv, hd1, hdv, htv]
          rw [if_neg (by simp only [List.length_append]; omega)]
          rw [ih fuel hrest]

theorem deserFields_serFields (fs : NodeMetadata) :
    deserFields (serFields fs) = some fs :=
  deserFieldsAux_serFields fs _ (serFields_length fs)

theorem getMetadata_set (dm : DynamicMetadata) (key : String) (v : NodeMetadata) :
    getMetadata (setMetadata dm key v) key = some v := by
  simp [getMetadata, setMetadata, List.find?_cons]

/-! ### List helper lemmas -/

theorem drop_append_le {α : Type} (n : Nat) (a b : List α) (h : n ≤ a.length) :
    (a ++ b).drop n = a.drop n ++ b := by
  rw [List.drop_append_eq_append_drop, Nat.sub_eq_zero_of_le h, List.drop_zero]

theorem take_append_le {α : Type} (n : Nat) (a b : List α) (h : n ≤ a.length) :
    (a ++ b).take n = a.take n := by
  rw [List.take_append_eq_append_take, Nat.sub_eq_zero_of_le h, List.take_zero,
    List.append_nil]

theorem decNat32_append (a b : List Nat) (h : 4 ≤ a.length) :
    decNat32 (a ++ b) = decNat32 a := by
  simp only [decNat32, byteAt]
  rw [List.getD_append _ _ _ _ (by omega), List.getD_append _ _ _ _ (by omega),
    List.getD_append _ _ _ _ (by omega), List.getD_append _ _ _ _ (by omega)]

/-! ### State-insensitivity of the two parsing helpers

Every branch of the two helpers overwrites `conn_state_`, so the incoming
value of `conn_state_` is irrelevant to them: a need-more-data state resumes
exactly the processing of the state that requested it. -/

theorem tryReadInitialProxyHeader_setState (s : FilterState) (c : ConnState)
    (data : List Nat) :
    tryReadInitialProxyHeader { s with conn_state_ := c } data =
      tryReadInitialProxyHeader s data := rfl

theorem tryReadProxyData_setState (s : FilterState) (c : ConnState)
    (data : List Nat) :
    tryReadProxyData { s with conn_state_ := c } data = tryReadProxyData s data := rfl

theorem onDataProxy_setState (s : FilterState) (c : ConnState) (data : List Nat) :
    onDataProxy { s with conn_state_ := c } data = onDataProxy s data := rfl

theorem onDataHeader_setState (s : FilterState) (c : ConnState) (data : List Nat) :
    onDataHeader { s with conn_state_ := c } data = onDataHeader s data := rfl

/-! ### Absorbing states -/

theorem onData_done (s : FilterState) (data : List Nat)
    (h : s.conn_state_ = .Done) : onData s data = ⟨s, data, []⟩ := by
  simp [onData, h]

theorem onData_invalid (s : FilterState) (data : List Nat)
    (h : s.conn_state_ = .Invalid) : onData s data = ⟨s, data, []⟩ := by
  simp [onData, h]

theorem onData_passthrough (s : FilterState) (data : List Nat)
    (h : s.conn_state_ = .Done ∨ s.conn_state_ = .Invalid ∨
      s.conn_state_ = .ConnProtocolNotRead ∨ s.conn_state_ = .WriteMetadata) :
    onData s data = ⟨s, data, []⟩ := by
  rcases h with h | h | h | h <;> simp [onData, h]

/-! ### Dispatch lemmas: one callback layer at a time

Rewriting with these (instead of unfolding several definitions into one goal)
keeps every intermediate term small. -/

theorem onData_eq_header (s : FilterState) (data : List Nat)
    (h : s.conn_state_ = .ReadingInitialHeader ∨
      s.conn_state_ = .NeedMoreDataInitialHeader) :
    onData s data = onDataHeader s data := by
  rcases h with h | h <;> simp only [onData, h]

theorem onData_eq_proxy (s : FilterState) (data : List Nat)
    (h : s.conn_state_ = .ReadingProxyHeader ∨
      s.conn_state_ = .NeedMoreDataProxyHeader) :
    onData s data = onDataProxy s data := by
  rcases h with h | h <;> simp only [onData, h]

theorem onDataHeader_needmore (s : FilterState) (data : List Nat)
    (s2 : FilterState) (d2 : List Nat)
    (h : tryReadInitialProxyHeader s data = (s2, d2))
    (hcs : s2.conn_state_ = .NeedMoreDataInitialHeader) :
    onDataHeader s data = ⟨s2, [], d2⟩ := by
  simp only [onDataHeader, h, hcs]

theorem onDataHeader_proxy (s : FilterState) (data : List Nat)
    (s2 : FilterState) (d2 : List Nat)
    (h : tryReadInitialProxyHeader s data = (s2, d2))
    (hcs : s2.conn_state_ = .ReadingProxyHeader) :
    onDataHeader s data = onDataProxy s2 d2 := by
  simp only [onDataHeader, h, hcs]

theorem onDataHeader_fail (s : FilterState) (data : List Nat)
    (s2 : FilterState) (d2 : List Nat)
    (h : tryReadInitialProxyHeader s data = (s2, d2))
    (hcs : s2.conn_state_ = .Invalid) :
    onDataHeader s data = ⟨s2, d2, []⟩ := by
  simp only [onDataHeader, h, hcs]

theorem onDataProxy_needmore (s : FilterState) (data : List Nat)
    (s2 : FilterState) (d2 : List Nat)
    (h : tryReadProxyData s data = (s2, d2))
    (hcs : s2.conn_state_ = .NeedMoreDataProxyHeader) :
    onDataProxy s data = ⟨s2, [], d2⟩ := by
  simp only [onDataProxy, h, hcs]

theorem onDataProxy_forward (s : FilterState) (data : List Nat)
    (s2 : FilterState) (d2 : List Nat)
    (h : tryReadProxyData s data = (s2, d2))
    (hcs : s2.conn_state_ = .Done ∨ s2.conn_state_ = .Invalid) :
    onDataProxy s data = ⟨s2, d2, []⟩ := by
  rcases hcs with hcs | hcs <;> simp only [onDataProxy, h, hcs]

theorem runReads_invalid (s : FilterState) (frags : List (List Nat))
    (h : s.conn_state_ = .Invalid) :
    runReads s [] frags = ⟨s, frags.flatten, []⟩ := by
  induction frags with
  | nil => simp [runReads]
  | cons f rest ih =>
      simp [runReads, onData_invalid s _ h, ih]

/-! ### Fragmentation invariance

Processing a buffer in two pieces (with the runtime's retention of undrained
bytes in between) gives the same state, the same forwarded bytes and the same
retained bytes as processing it at once. -/

theorem onDataProxy_append (s : FilterState) (a b : List Nat) :
    onDataProxy s (a ++ b) = seqData (onDataProxy s a) b := by
  by_cases h1 : a.length < s.proxy_data_length_
  · have ha : tryReadProxyData s a =
        ({ s with conn_state_ := .NeedMoreDataProxyHeader }, a) := by
      rw [tryReadProxyData, if_pos h1]
    rw [onDataProxy_needmore _ _ _ _ ha rfl]
    simp only [seqData]
    rw [onData_eq_proxy _ _ (Or.inr rfl),
      onDataProxy_setState s .NeedMoreDataProxyHeader (a ++ b)]
    simp
  · have h2 : ¬ (a ++ b).length < s.proxy_data_length_ := by
      simp only [List.length_append]; omega
    have htake : (a ++ b).take s.proxy_data_length_ = a.take s.proxy_data_length_ :=
      take_append_le _ _ _ (by omega)
    have hdrop : (a ++ b).drop s.proxy_data_length_ =
        a.drop s.proxy_data_length_ ++ b :=
      drop_append_le _ _ _ (by omega)
    cases hdes : deserFields (a.take s.proxy_data_length_) with
    | some v =>
        have hab : tryReadProxyData s (a ++ b) =
            ({ s with
                conn_state_ := .Done
                dynamic_metadata := setMetadata s.dynamic_metadata
                  (dynamicDataKey s.config_.filter_direction_) v
                stats := { s.stats with
                  metadata_added := s.stats.metadata_added + 1 } },
              a.drop s.proxy_data_length_ ++ b) := by
          simp [tryReadProxyData, h2, htake, hdrop, hdes]
          omega
        have ha : tryReadProxyData s a =
            ({ s with
                conn_state_ := .Done
                dynamic_metadata := setMetadata s.dynamic_metadata
                  (dynamicDataKey s.config_.filter_direction_) v
                stats := { s.stats with
                  metadata_added := s.stats.metadata_added + 1 } },
              a.drop s.proxy_data_length_) := by
          simp [tryReadProxyData, h1, hdes]
        rw [onDataProxy_forward _ _ _ _ hab (Or.inl rfl),
          onDataProxy_forward _ _ _ _ ha (Or.inl rfl)]
        simp only [seqData]
        rw [onData_done _ _ rfl]
        simp
    | none =>
        have hab : tryReadProxyData s (a ++ b) =
            ({ s with
                conn_state_ := .Invalid
                stats := { s.stats with
                  header_not_found := s.stats.header_not_found + 1 } },
              a.drop s.proxy_data_length_ ++ b) := by
          simp [tryReadProxyData, h2, htake, hdrop, hdes]
          omega
        have ha : tryReadProxyData s a =
            ({ s with
                conn_state_ := .Invalid
                stats := { s.stats with
                  header_not_found := s.stats.header_not_found + 1 } },
              a.drop s.proxy_data_length_) := by
          simp [tryReadProxyData, h1, hdes]
        rw [onDataProxy_forward _ _ _ _ hab (Or.inr rfl),
          onDataProxy_forward _ _ _ _ ha (Or.inr rfl)]
        simp only [seqData]
        rw [onData_invalid _ _ rfl]
        simp

theorem onDataHeader_append (s : FilterState) (a b : List Nat) :
    onDataHeader s (a ++ b) = seqData (onDataHeader s a) b := by
  by_cases h8 : a.length < InitialHeaderSize
  · have ha : tryReadInitialProxyHeader s a =
        ({ s with conn_state_ := .NeedMoreDataInitialHeader }, a) := by
      simp [tryReadInitialProxyHeader, h8]
    rw [onDataHeader_needmore _ _ _ _ ha rfl]
    simp only [seqData]
    rw [onData_eq_header _ _ (Or.inr rfl),
      onDataHeader_setState s .NeedMoreDataInitialHeader (a ++ b)]
    simp
  · have h8' : ¬ (a ++ b).length < InitialHeaderSize := by
      simp only [List.length_append]; omega
    have hlen : 8 ≤ a.length := by
      simp only [InitialHeaderSize] at h8; omega
    have hdec : decNat32 (a ++ b) = decNat32 a := decNat32_append a b (by omega)
    by_cases hm : decNat32 a = MagicNumber
    · have hdrop4 : (a ++ b).drop 4 = a.drop 4 ++ b :=
        drop_append_le _ _ _ (by omega)
      have hdec4 : decNat32 ((a ++ b).drop 4) = decNat32 (a.drop 4) := by
        rw [hdrop4]
        exact decNat32_append _ _ (by simp only [List.length_drop]; omega)
      have hdrop8 : (a ++ b).drop InitialHeaderSize =
          a.drop InitialHeaderSize ++ b :=
        drop_append_le _ _ _ (by simp only [InitialHeaderSize]; omega)
      have hab : tryReadInitialProxyHeader s (a ++ b) =
          ({ s with
              conn_state_ := .ReadingProxyHeader
              proxy_data_length_ := decNat32 (a.drop 4) },
            a.drop InitialHeaderSize ++ b) := by
        simp [tryReadInitialProxyHeader, h8', hdec, hdec4, hm, hdrop8]
        omega
      have ha : tryReadInitialProxyHeader s a =
          ({ s with
              conn_state_ := .ReadingProxyHeader
              proxy_data_length_ := decNat32 (a.drop 4) },
            a.drop InitialHeaderSize) := by
        simp [tryReadInitialProxyHeader, h8, hm]
      rw [onDataHeader_proxy _ _ _ _ hab rfl, onDataHeader_proxy _ _ _ _ ha rfl]
      exact onDataProxy_append _ _ b
    · have hab : tryReadInitialProxyHeader s (a ++ b) =
          ({ s with
              conn_state_ := .Invalid
              stats := { s.stats with
                initial_header_not_found := s.stats.initial_header_not_found + 1 } },
            a ++ b) := by
        simp [tryReadInitialProxyHeader, h8', hdec, hm]
        omega
      have ha : tryReadInitialProxyHeader s a =
          ({ s with
              conn_state_ := .Invalid
              stats := { s.stats with
                initial_header_not_found := s.stats.initial_header_not_found + 1 } },
            a) := by
        simp [tryReadInitialProxyHeader, h8, hm]
      rw [onDataHeader_fail _ _ _ _ hab rfl, onDataHeader_fail _ _ _ _ ha rfl]
      simp only [seqData]
      rw [onData_invalid _ _ rfl]
      simp

theorem onData_append (s : FilterState) (a b : List Nat) :
    onData s (a ++ b) = seqData (onData s a) b := by
  cases h : s.conn_state_
  case ReadingInitialHeader =>
      simp only [onData, h]
      exact onDataHeader_append s a b
  case NeedMoreDataInitialHeader =>
      simp only [onData, h]
      exact onDataHeader_append s a b
  case ReadingProxyHeader =>
      simp only [onData, h]
      exact onDataProxy_append s a b
  case NeedMoreDataProxyHeader =>
      simp only [onData, h]
      exact onDataProxy_append s a b
  all_goals simp [onData, h, seqData]

theorem runReads_cons (s : FilterState) (ret f : List Nat)
    (rest : List (List Nat)) :
    runReads s ret (f :: rest) =
      ⟨(runReads (onData s (ret ++ f)).state (onData s (ret ++ f)).retained
          rest).state,
        (onData s (ret ++ f)).forwarded ++
          (runReads (onData s (ret ++ f)).state (onData s (ret ++ f)).retained
            rest).forwarded,
        (runReads (onData s (ret ++ f)).state (onData s (ret ++ f)).retained
          rest).retained⟩ := rfl

theorem runReads_eq_onData (s : FilterState) (r : List Nat)
    (frags : List (List Nat)) (h : frags ≠ []) :
    runReads s r frags = onData s (r ++ frags.flatten) := by
  induction frags generalizing s r with
  | nil => simp at h
  | cons f rest ih =>
      cases rest with
      | nil =>
          rw [runReads_cons]
          simp [runReads]
      | cons f' rest' =>
          rw [runReads_cons]
          conv_rhs =>
            rw [show r ++ (f :: f' :: rest').flatten =
                (r ++ f) ++ (f' :: rest').flatten from by simp, onData_append]
          rw [ih _ _ (by simp)]
          simp [seqData]

/-! ### The successful exchange on a single buffer -/

theorem onData_full (s : FilterState) (v : NodeMetadata) (t : List Nat)
    (hs : s.conn_state_ = .ReadingInitialHeader)
    (hlen : (serFields v).length < 2 ^ 32) :
    onData s (encNat32 MagicNumber ++
        (encNat32 (serFields v).length ++ (serFields v ++ t))) =
      ⟨{ s with
          conn_state_ := .Done
          proxy_data_length_ := (serFields v).length
          dynamic_metadata := setMetadata s.dynamic_metadata
            (dynamicDataKey s.config_.filter_direction_) v
          stats := { s.stats with metadata_added := s.stats.metadata_added + 1 } },
        t, []⟩ := by
  have hmagic : decNat32 (encNat32 MagicNumber ++
      (encNat32 (serFields v).length ++ (serFields v ++ t))) = MagicNumber :=
    decNat32_enc _ _ (by decide)
  have hlen8 : ¬ (encNat32 MagicNumber ++
      (encNat32 (serFields v).length ++ (serFields v ++ t))).length <
        InitialHeaderSize := by
    simp [encNat32, InitialHeaderSize]
  have hdrop4 : (encNat32 MagicNumber ++
      (encNat32 (serFields v).length ++ (serFields v ++ t))).drop 4 =
        encNat32 (serFields v).length ++ (serFields v ++ t) := by
    simp [encNat32]
  have hdeclen : decNat32 (encNat32 (serFields v).length ++ (serFields v ++ t)) =
      (serFields v).length := decNat32_enc _ _ hlen
  have hdrop8 : (encNat32 MagicNumber ++
      (encNat32 (serFields v).length ++ (serFields v ++ t))).drop
        InitialHeaderSize = serFields v ++ t := by
    simp [encNat32, InitialHeaderSize]
  have hheader : tryReadInitialProxyHeader s (encNat32 MagicNumber ++
      (encNat32 (serFields v).length ++ (serFields v ++ t))) =
      ({ s with
          conn_state_ := .ReadingProxyHeader
          proxy_data_length_ := (serFields v).length }, serFields v ++ t) := by
    rw [tryReadInitialProxyHeader, if_neg hlen8,
      if_neg (by simp [hmagic]), hdrop4, hdeclen, hdrop8]
  have hnotlt : ¬ (serFields v ++ t).length < (serFields v).length := by
    simp only [List.length_append]; omega
  have htake : (serFields v ++ t).take (serFields v).length = serFields v :=
    List.take_left _ _
  have hdropP : (serFields v ++ t).drop (serFields v).length = t :=
    List.drop_left _ _
  have hproxy : tryReadProxyData
      { s with
          conn_state_ := .ReadingProxyHeader
          proxy_data_length_ := (serFields v).length } (serFields v ++ t) =
      ({ s with
          conn_state_ := .Done
          proxy_data_length_ := (serFields v).length
          dynamic_metadata := setMetadata s.dynamic_metadata
            (dynamicDataKey s.config_.filter_direction_) v
          stats := { s.stats with
            metadata_added := s.stats.metadata_added + 1 } }, t) := by
    simp [tryReadProxyData, hnotlt, htake, hdropP, deserFields_serFields]
  rw [onData_eq_header s _ (Or.inl hs), onDataHeader_proxy _ _ _ _ hheader rfl,
    onDataProxy_forward _ _ _ _ hproxy (Or.inl rfl)]

/-- Claim C1: for every connection where ALPN matched (the machine is reading
the peer's initial header) and the peer sends a well-formed initial header plus
payload split arbitrarily across N inbound buffers (N ≥ 1, including 1-byte
fragments), the final decoded structured value equals the value the peer
encoded, the `metadata_added` counter is incremented exactly once, the header
and payload bytes are fully removed from what is forwarded downstream, and all
trailing application bytes pass through unmodified and in original order. -/
theorem C1_fragmented_exchange (s : FilterState) (v : NodeMetadata) (t : List Nat)
    (frags : List (List Nat))
    (hs : s.conn_state_ = .ReadingInitialHeader)
    (hlen : (serFields v).length < 2 ^ 32)
    (hfr : frags ≠ [])
    (hjoin : frags.flatten = encNat32 MagicNumber ++
      (encNat32 (serFields v).length ++ (serFields v ++ t))) :
    runReads s [] frags =
      ⟨{ s with
          conn_state_ := .Done
          proxy_data_length_ := (serFields v).length
          dynamic_metadata := setMetadata s.dynamic_metadata
            (dynamicDataKey s.config_.filter_direction_) v
          stats := { s.stats with metadata_added := s.stats.metadata_added + 1 } },
        t, []⟩ ∧
    getMetadata (runReads s [] frags).state.dynamic_metadata
      (dynamicDataKey s.config_.filter_direction_) = some v ∧
    (runReads s [] frags).state.stats.metadata_added =
      s.stats.metadata_added + 1 := by
  have h1 : runReads s [] frags = onData s ([] ++ frags.flatten) :=
    runReads_eq_onData s [] frags hfr
  rw [List.nil_append, hjoin] at h1
  rw [h1, onData_full s v t hs hlen]
  exact ⟨rfl, getMetadata_set _ _ _, rfl⟩

/-- An example configuration for the concrete instances below. -/
def egConfig : MetadataExchangeConfig :=
  ⟨"istio-peer-exchange", "istio.io/node", .Upstream⟩

/-- An example filter instance whose ALPN gate already matched and whose local
metadata block was already written: it is reading the peer's header. -/
def egReading : FilterState :=
  { mkMetadataExchangeFilter egConfig [([1], [2])] with
      conn_state_ := .ReadingInitialHeader }

/-- The bytes of a well-formed exchange for the value `[([1], [2])]` followed by
the trailing application byte 9, delivered one byte at a time. -/
def egFragsC1 : List (List Nat) :=
  ((encNat32 MagicNumber ++
    (encNat32 (serFields [([1], [2])]).length ++
      (serFields [([1], [2])] ++ [9]))).map (fun x => [x]))

theorem C1_fragmented_exchange_witness :
    (runReads egReading [] egFragsC1).forwarded = [9] ∧
    getMetadata (runReads egReading [] egFragsC1).state.dynamic_metadata
      (dynamicDataKey egReading.config_.filter_direction_) = some [([1], [2])] ∧
    (runReads egReading [] egFragsC1).state.stats.metadata_added = 1 := by
  have h := C1_fragmented_exchange egReading [([1], [2])] [9] egFragsC1
    rfl (by decide) (by decide) (by decide)
  refine ⟨?_, h.2.1, ?_⟩
  · rw [h.1]
  · rw [h.2.2]
    rfl

/-! ### Write-path helpers -/

theorem onWrite_ne (s : FilterState) (data : List Nat)
    (h : s.conn_state_ ≠ .WriteMetadata) : onWrite s data = (s, data) := by
  cases hc : s.conn_state_
  case WriteMetadata => exact absurd hc h
  all_goals simp [onWrite, hc]

theorem runWrites_inert (s : FilterState) (frags : List (List Nat))
    (h : s.conn_state_ ≠ .WriteMetadata) : runWrites s frags = (s, frags, 0) := by
  induction frags with
  | nil => rfl
  | cons f rest ih => simp [runWrites, onWrite_ne s f h, h, ih]

/-- Claim C2: for every connection where the negotiated ALPN token does not
equal the configured expected token, the filter's output stream equals its
input stream byte-for-byte in both directions (pure identity pass-through), the
`alpn_protocol_not_found` counter is incremented exactly once, and the
metadata side channel stays absent for the connection's whole lifetime. -/
theorem C2_alpn_mismatch (cfg : MetadataExchangeConfig) (lm : NodeMetadata)
    (alpn : String) (frags wfrags : List (List Nat))
    (halpn : alpn ≠ cfg.protocol_) :
    (onNewConnection (mkMetadataExchangeFilter cfg lm) alpn).conn_state_ =
      .Invalid ∧
    (onNewConnection (mkMetadataExchangeFilter cfg lm)
      alpn).stats.alpn_protocol_not_found = 1 ∧
    runReads (onNewConnection (mkMetadataExchangeFilter cfg lm) alpn) [] frags =
      ⟨onNewConnection (mkMetadataExchangeFilter cfg lm) alpn,
        frags.flatten, []⟩ ∧
    runWrites (onNewConnection (mkMetadataExchangeFilter cfg lm) alpn) wfrags =
      (onNewConnection (mkMetadataExchangeFilter cfg lm) alpn, wfrags, 0) ∧
    getMetadata (runReads (onNewConnection (mkMetadataExchangeFilter cfg lm)
        alpn) [] frags).state.dynamic_metadata
      (dynamicDataKey cfg.filter_direction_) = none := by
  have h1 : onNewConnection (mkMetadataExchangeFilter cfg lm) alpn =
      { config_ := cfg
        local_info_ := lm
        conn_state_ := .Invalid
        proxy_data_length_ := 0
        stats := ⟨1, 0, 0, 0, 0⟩
        dynamic_metadata := ⟨[]⟩ } := by
    simp [onNewConnection, mkMetadataExchangeFilter, halpn,
      MetadataExchangeStats.zero]
  rw [h1]
  refine ⟨rfl, rfl, ?_, ?_, ?_⟩
  · exact runReads_invalid _ _ rfl
  · exact runWrites_inert _ _ (by simp)
  · rw [runReads_invalid _ _ rfl]
    rfl

theorem C2_alpn_mismatch_witness :
    (onNewConnection (mkMetadataExchangeFilter egConfig [([1], [2])])
      "http/1.1").conn_state_ = ConnState.Invalid ∧
    (onNewConnection (mkMetadataExchangeFilter egConfig [([1], [2])])
      "http/1.1").stats.alpn_protocol_not_found = 1 ∧
    runReads (onNewConnection (mkMetadataExchangeFilter egConfig [([1], [2])])
        "http/1.1") [] [[1, 2], [3]] =
      ⟨onNewConnection (mkMetadataExchangeFilter egConfig [([1], [2])])
        "http/1.1", [1, 2, 3], []⟩ ∧
    runWrites (onNewConnection (mkMetadataExchangeFilter egConfig [([1], [2])])
        "http/1.1") [[4], [5]] =
      (onNewConnection (mkMetadataExchangeFilter egConfig [([1], [2])])
        "http/1.1", [[4], [5]], 0) ∧
    getMetadata (runReads (onNewConnection (mkMetadataExchangeFilter egConfig
        [([1], [2])]) "http/1.1") [] [[1, 2], [3]]).state.dynamic_metadata
      (dynamicDataKey egConfig.filter_direction_) = none := by
  have h := C2_alpn_mismatch egConfig [([1], [2])] "http/1.1" [[1, 2], [3]]
    [[4], [5]] (by decide)
  exact h

/-- Claim C4: for every connection on which ALPN matched, the local outbound
metadata block is emitted exactly once, regardless of how many write callbacks
occur; after that single emission the filter never modifies outbound bytes
again. -/
theorem C4_write_once (s : FilterState) (f : List Nat) (rest : List (List Nat))
    (hs : s.conn_state_ = .WriteMetadata) :
    runWrites s (f :: rest) =
      ({ s with conn_state_ := .ReadingInitialHeader },
        (metadataBlock s.local_info_ ++ f) :: rest, 1) ∧
    (∀ s2 data, s2.conn_state_ ≠ .WriteMetadata → onWrite s2 data = (s2, data)) := by
  refine ⟨?_, fun s2 data h => onWrite_ne s2 data h⟩
  have hw : onWrite s f =
      ({ s with conn_state_ := .ReadingInitialHeader },
        metadataBlock s.local_info_ ++ f) := by
    simp [onWrite, hs]
  simp [runWrites, hs, hw,
    runWrites_inert { s with conn_state_ := .ReadingInitialHeader } rest (by simp)]

theorem C4_write_once_witness :
    runWrites { egReading with conn_state_ := ConnState.WriteMetadata }
        [[7], [8]] =
      ({ egReading with conn_state_ := ConnState.ReadingInitialHeader },
        [metadataBlock egReading.local_info_ ++ [7], [8]], 1) ∧
    onWrite egReading [6] = (egReading, [6]) := by
  have h := C4_write_once { egReading with conn_state_ := ConnState.WriteMetadata }
    [7] [[8]] rfl
  exact ⟨h.1, h.2 egReading [6] (by decide)⟩

/-- Claim C5: for every connection where the fixed initial header is available
but its magic field decodes to a wrong value, the state becomes `Invalid`, the
`initial_header_not_found` counter is incremented exactly once, and all
subsequent bytes on that connection pass through unmodified. -/
theorem C5_bad_magic (s : FilterState) (data : List Nat) (frags : List (List Nat))
    (hs : s.conn_state_ = .ReadingInitialHeader)
    (hlen : InitialHeaderSize ≤ data.length)
    (hmagic : decNat32 data ≠ MagicNumber) :
    onData s data =
      ⟨{ s with
          conn_state_ := .Invalid
          stats := { s.stats with
            initial_header_not_found := s.stats.initial_header_not_found + 1 } },
        data, []⟩ ∧
    runReads (onData s data).state [] frags =
      ⟨(onData s data).state, frags.flatten, []⟩ ∧
    (onData s data).state.stats.initial_header_not_found =
      s.stats.initial_header_not_found + 1 := by
  have hh : tryReadInitialProxyHeader s data =
      ({ s with
          conn_state_ := .Invalid
          stats := { s.stats with
            initial_header_not_found := s.stats.initial_header_not_found + 1 } },
        data) := by
    rw [tryReadInitialProxyHeader, if_neg (by omega), if_pos hmagic]
  have h1 : onData s data =
      ⟨{ s with
          conn_state_ := .Invalid
          stats := { s.stats with
            initial_header_not_found := s.stats.initial_header_not_found + 1 } },
        data, []⟩ := by
    rw [onData_eq_header s data (Or.inl hs), onDataHeader_fail _ _ _ _ hh rfl]
  rw [h1]
  exact ⟨rfl, runReads_invalid _ _ rfl, rfl⟩

theorem C5_bad_magic_witness :
    onData egReading [0, 0, 0, 0, 0, 0, 0, 0] =
      ⟨{ egReading with
          conn_state_ := ConnState.Invalid
          stats := { egReading.stats with initial_header_not_found := 1 } },
        [0, 0, 0, 0, 0, 0, 0, 0], []⟩ ∧
    runReads (onData egReading [0, 0, 0, 0, 0, 0, 0, 0]).state [] [[5]] =
      ⟨(onData egReading [0, 0, 0, 0, 0, 0, 0, 0]).state, [5], []⟩ := by
  have h := C5_bad_magic egReading [0, 0, 0, 0, 0, 0, 0, 0] [[5]]
    rfl (by decide) (by decide)
  exact ⟨h.1, h.2.1⟩

/-- Claim C6: for every connection where the declared number of payload bytes is
available but the payload fails to deserialize, the state transitions to
`Invalid`, the `header_not_found` counter is reported, no metadata is published
for any direction, and byte pass-through continues for the rest of the
connection. -/
theorem C6_malformed_payload (s : FilterState) (data : List Nat)
    (frags : List (List Nat))
    (hs : s.conn_state_ = .ReadingProxyHeader)
    (hlen : s.proxy_data_length_ ≤ data.length)
    (hdes : deserFields (data.take s.proxy_data_length_) = none) :
    onData s data =
      ⟨{ s with
          conn_state_ := .Invalid
          stats := { s.stats with
            header_not_found := s.stats.header_not_found + 1 } },
        data.drop s.proxy_data_length_, []⟩ ∧
    (onData s data).state.dynamic_metadata = s.dynamic_metadata ∧
    runReads (onData s data).state [] frags =
      ⟨(onData s data).state, frags.flatten, []⟩ ∧
    (onData s data).state.stats.header_not_found =
      s.stats.header_not_found + 1 := by
  have hnl : ¬ data.length < s.proxy_data_length_ := by omega
  have ht : tryReadProxyData s data =
      ({ s with
          conn_state_ := .Invalid
          stats := { s.stats with
            header_not_found := s.stats.header_not_found + 1 } },
        data.drop s.proxy_data_length_) := by
    simp [tryReadProxyData, hnl, hdes]
  have h1 : onData s data =
      ⟨{ s with
          conn_state_ := .Invalid
          stats := { s.stats with
            header_not_found := s.stats.header_not_found + 1 } },
        data.drop s.proxy_data_length_, []⟩ := by
    rw [onData_eq_proxy s data (Or.inl hs), onDataProxy_forward _ _ _ _ ht (Or.inr rfl)]
  rw [h1]
  exact ⟨rfl, rfl, runReads_invalid _ _ rfl, rfl⟩

/-- A filter instance that has read a valid initial header declaring one
payload byte and is waiting for the payload. -/
def egReadingPayload : FilterState :=
  { egReading with
      conn_state_ := ConnState.ReadingProxyHeader
      proxy_data_length_ := 1 }

theorem C6_malformed_payload_witness :
    onData egReadingPayload [5, 9] =
      ⟨{ egReadingPayload with
          conn_state_ := ConnState.Invalid
          stats := { egReadingPayload.stats with header_not_found := 1 } },
        [9], []⟩ ∧
    (onData egReadingPayload [5, 9]).state.dynamic_metadata =
      egReadingPayload.dynamic_metadata ∧
    runReads (onData egReadingPayload [5, 9]).state [] [[6]] =
      ⟨(onData egReadingPayload [5, 9]).state, [6], []⟩ := by
  have h := C6_malformed_payload egReadingPayload [5, 9] [[6]]
    rfl (by decide) (by decide)
  exact ⟨h.1, h.2.1, h.2.2.1⟩

/-- Claim C7: for every connection whose stream closes after delivering only
part of the fixed initial header, no payload decode is attempted, the metadata
side channel remains absent, and neither `initial_header_not_found` nor
`header_not_found` is incremented: the machine is simply left waiting in
`NeedMoreDataInitialHeader` with the bytes retained. -/
theorem C7_incomplete_header (s : FilterState) (frags : List (List Nat))
    (hs : s.conn_state_ = .ReadingInitialHeader)
    (hfr : frags ≠ [])
    (hshort : frags.flatten.length < InitialHeaderSize) :
    runReads s [] frags =
      ⟨{ s with conn_state_ := .NeedMoreDataInitialHeader }, [], frags.flatten⟩ ∧
    (runReads s [] frags).state.stats = s.stats ∧
    (runReads s [] frags).state.dynamic_metadata = s.dynamic_metadata ∧
    (runReads s [] frags).state.proxy_data_length_ = s.proxy_data_length_ := by
  have h1 := runReads_eq_onData s [] frags hfr
  rw [List.nil_append] at h1
  have hh : tryReadInitialProxyHeader s frags.flatten =
      ({ s with conn_state_ := .NeedMoreDataInitialHeader }, frags.flatten) := by
    rw [tryReadInitialProxyHeader, if_pos hshort]
  have h2 : onData s frags.flatten =
      ⟨{ s with conn_state_ := .NeedMoreDataInitialHeader }, [], frags.flatten⟩ := by
    rw [onData_eq_header s _ (Or.inl hs), onDataHeader_needmore _ _ _ _ hh rfl]
  rw [h1, h2]
  exact ⟨rfl, rfl, rfl, rfl⟩

theorem C7_incomplete_header_witness :
    runReads egReading [] [[61], [35], [4], [103], [0]] =
      ⟨{ egReading with conn_state_ := ConnState.NeedMoreDataInitialHeader },
        [], [61, 35, 4, 103, 0]⟩ ∧
    (runReads egReading [] [[61], [35], [4], [103], [0]]).state.stats =
      egReading.stats := by
  have h := C7_incomplete_header egReading [[61], [35], [4], [103], [0]]
    rfl (by decide) (by decide)
  exact ⟨h.1, h.2.1⟩

/-! ### State-machine shape lemmas -/

theorem onDataProxy_state (s : FilterState) (data : List Nat) :
    (onDataProxy s data).state.conn_state_ = .NeedMoreDataProxyHeader ∨
    (onDataProxy s data).state.conn_state_ = .Done ∨
    (onDataProxy s data).state.conn_state_ = .Invalid := by
  by_cases h : data.length < s.proxy_data_length_
  · simp [onDataProxy, tryReadProxyData, h]
  · cases hd : deserFields (data.take s.proxy_data_length_) <;>
      simp [onDataProxy, tryReadProxyData, h, hd]

theorem onDataHeader_state (s : FilterState) (data : List Nat) :
    (onDataHeader s data).state.conn_state_ = .NeedMoreDataInitialHeader ∨
    (onDataHeader s data).state.conn_state_ = .NeedMoreDataProxyHeader ∨
    (onDataHeader s data).state.conn_state_ = .Done ∨
    (onDataHeader s data).state.conn_state_ = .Invalid := by
  by_cases h8 : data.length < InitialHeaderSize
  · simp [onDataHeader, tryReadInitialProxyHeader, h8]
  · by_cases hm : decNat32 data = MagicNumber
    · have hh : tryReadInitialProxyHeader s data =
          ({ s with
              conn_state_ := .ReadingProxyHeader
              proxy_data_length_ := decNat32 (data.drop 4) },
            data.drop InitialHeaderSize) := by
        simp [tryReadInitialProxyHeader, h8, hm]
      simp only [onDataHeader, hh]
      exact (onDataProxy_state _ _).imp_left (fun h => h) |>.imp_right
        (fun h => h) |>.elim (fun h => Or.inr (Or.inl h))
        (fun h => h.elim (fun h => Or.inr (Or.inr (Or.inl h)))
          (fun h => Or.inr (Or.inr (Or.inr h))))
    · simp [onDataHeader, tryReadInitialProxyHeader, h8, hm]

theorem onData_rank (s : FilterState) (data : List Nat) :
    stateRank s.conn_state_ ≤ stateRank (onData s data).state.conn_state_ := by
  cases hc : s.conn_state_
  case ReadingInitialHeader =>
      simp only [onData, hc]
      rcases onDataHeader_state s data with h | h | h | h <;> simp [h, stateRank]
  case NeedMoreDataInitialHeader =>
      simp only [onData, hc]
      rcases onDataHeader_state s data with h | h | h | h <;> simp [h, stateRank]
  case ReadingProxyHeader =>
      simp only [onData, hc]
      rcases onDataProxy_state s data with h | h | h <;> simp [h, stateRank]
  case NeedMoreDataProxyHeader =>
      simp only [onData, hc]
      rcases onDataProxy_state s data with h | h | h <;> simp [h, stateRank]
  all_goals simp [onData, hc, stateRank]

theorem onWrite_rank (s : FilterState) (data : List Nat) :
    stateRank s.conn_state_ ≤ stateRank (onWrite s data).1.conn_state_ := by
  cases hc : s.conn_state_ <;> simp [onWrite, hc, stateRank]

theorem onNewConnection_rank (s : FilterState) (alpn : String) :
    stateRank s.conn_state_ ≤ stateRank (onNewConnection s alpn).conn_state_ := by
  cases hc : s.conn_state_
  case ConnProtocolNotRead =>
      by_cases halpn : alpn = s.config_.protocol_ <;>
        simp [onNewConnection, hc, halpn, stateRank]
  all_goals simp [onNewConnection, hc, stateRank]

theorem onNewConnection_ne (s : FilterState) (alpn : String)
    (h : s.conn_state_ ≠ .ConnProtocolNotRead) : onNewConnection s alpn = s := by
  cases hc : s.conn_state_
  case ConnProtocolNotRead => exact absurd hc h
  all_goals simp [onNewConnection, hc]

/-- Claim C3: for every connection and every sequence of delivered events, the
connection state only moves forward in rank through the chain
`ConnProtocolNotRead → WriteMetadata → ReadingInitialHeader →
ReadingProxyHeader → Done/Invalid`; the two need-more-data states resume
exactly the processing of the state that requested them once bytes arrive; and
`Done` and `Invalid` are absorbing: no further parsing occurs and the state
never changes again. -/
theorem C3_state_machine (s : FilterState) (data : List Nat) (alpn : String) :
    stateRank s.conn_state_ ≤ stateRank (onData s data).state.conn_state_ ∧
    stateRank s.conn_state_ ≤ stateRank (onWrite s data).1.conn_state_ ∧
    stateRank s.conn_state_ ≤ stateRank (onNewConnection s alpn).conn_state_ ∧
    (s.conn_state_ = .Done →
      onData s data = ⟨s, data, []⟩ ∧ onWrite s data = (s, data) ∧
        onNewConnection s alpn = s) ∧
    (s.conn_state_ = .Invalid →
      onData s data = ⟨s, data, []⟩ ∧ onWrite s data = (s, data) ∧
        onNewConnection s alpn = s) ∧
    (s.conn_state_ = .NeedMoreDataInitialHeader →
      onData s data = onData { s with conn_state_ := .ReadingInitialHeader } data) ∧
    (s.conn_state_ = .NeedMoreDataProxyHeader →
      onData s data = onData { s with conn_state_ := .ReadingProxyHeader } data) := by
  refine ⟨onData_rank s data, onWrite_rank s data, onNewConnection_rank s alpn,
    ?_, ?_, ?_, ?_⟩
  · intro h
    exact ⟨onData_done s data h, onWrite_ne s data (by simp [h]),
      onNewConnection_ne s alpn (by simp [h])⟩
  · intro h
    exact ⟨onData_invalid s data h, onWrite_ne s data (by simp [h]),
      onNewConnection_ne s alpn (by simp [h])⟩
  · intro h
    simp only [onData, h]
    rw [onDataHeader_setState s .ReadingInitialHeader data]
  · intro h
    simp only [onData, h]
    rw [onDataProxy_setState s .ReadingProxyHeader data]

theorem C3_state_machine_witness :
    onData { egReading with conn_state_ := ConnState.Done } [3] =
      ⟨{ egReading with conn_state_ := ConnState.Done }, [3], []⟩ ∧
    onData { egReading with conn_state_ := ConnState.NeedMoreDataInitialHeader }
        [4] =
      onData { egReading with conn_state_ := ConnState.ReadingInitialHeader }
        [4] := by
  have h1 := C3_state_machine { egReading with conn_state_ := ConnState.Done }
    [3] "x"
  have h2 := C3_state_machine
    { egReading with conn_state_ := ConnState.NeedMoreDataInitialHeader } [4] "x"
  exact ⟨(h1.2.2.2.1 rfl).1, h2.2.2.2.2.2.1 rfl⟩

/-! ### The filter direction only selects the side-channel key -/

/-- Everything one can observe of a read callback apart from the connection's
dynamic-metadata bag and the immutable configuration. -/
def sameObservables (r₁ r₂ : DataResult) : Prop :=
  r₁.state.conn_state_ = r₂.state.conn_state_ ∧
  r₁.state.proxy_data_length_ = r₂.state.proxy_data_length_ ∧
  r₁.state.stats = r₂.state.stats ∧
  r₁.state.local_info_ = r₂.state.local_info_ ∧
  r₁.forwarded = r₂.forwarded ∧
  r₁.retained = r₂.retained

/-- Replacing the configured direction, leaving all else equal. -/
def withDirection (d : FilterDirection) (s : FilterState) : FilterState :=
  { s with config_ := { s.config_ with filter_direction_ := d } }

theorem onDataProxy_direction (s : FilterState) (d : FilterDirection)
    (data : List Nat) :
    sameObservables (onDataProxy (withDirection d s) data) (onDataProxy s data) := by
  by_cases h : data.length < s.proxy_data_length_
  · simp [onDataProxy, tryReadProxyData, withDirection, h, sameObservables]
  · cases hd : deserFields (data.take s.proxy_data_length_) <;>
      simp [onDataProxy, tryReadProxyData, withDirection, h, hd, sameObservables]

theorem onDataHeader_direction (s : FilterState) (d : FilterDirection)
    (data : List Nat) :
    sameObservables (onDataHeader (withDirection d s) data) (onDataHeader s data) := by
  by_cases h8 : data.length < InitialHeaderSize
  · simp [onDataHeader, tryReadInitialProxyHeader, withDirection, h8,
      sameObservables]
  · by_cases hm : decNat32 data = MagicNumber
    · have hh : tryReadInitialProxyHeader s data =
          ({ s with
              conn_state_ := .ReadingProxyHeader
              proxy_data_length_ := decNat32 (data.drop 4) },
            data.drop InitialHeaderSize) := by
        simp [tryReadInitialProxyHeader, h8, hm]
      have hh2 : tryReadInitialProxyHeader (withDirection d s) data =
          ({ withDirection d s with
              conn_state_ := .ReadingProxyHeader
              proxy_data_length_ := decNat32 (data.drop 4) },
            data.drop InitialHeaderSize) := by
        simp [tryReadInitialProxyHeader, withDirection, h8, hm]
      simp only [onDataHeader, hh, hh2]
      have h3 := onDataProxy_direction
        { s with
            conn_state_ := .ReadingProxyHeader
            proxy_data_length_ := decNat32 (data.drop 4) } d
        (data.drop InitialHeaderSize)
      simpa [withDirection] using h3
    · simp [onDataHeader, tryReadInitialProxyHeader, withDirection, h8, hm,
        sameObservables]

theorem onData_direction (s : FilterState) (d : FilterDirection)
    (data : List Nat) :
    sameObservables (onData (withDirection d s) data) (onData s data) := by
  have hcs : (withDirection d s).conn_state_ = s.conn_state_ := rfl
  cases hc : s.conn_state_
  case ReadingInitialHeader =>
      simp only [onData, hcs, hc]
      exact onDataHeader_direction s d data
  case NeedMoreDataInitialHeader =>
      simp only [onData, hcs, hc]
      exact onDataHeader_direction s d data
  case ReadingProxyHeader =>
      simp only [onData, hcs, hc]
      exact onDataProxy_direction s d data
  case NeedMoreDataProxyHeader =>
      simp only [onData, hcs, hc]
      exact onDataProxy_direction s d data
  all_goals simp [onData, hcs, hc, withDirection, sameObservables]

theorem onDataProxy_metadata_key (s : FilterState) (data : List Nat) :
    (onDataProxy s data).state.dynamic_metadata = s.dynamic_metadata ∨
    ∃ v, (onDataProxy s data).state.dynamic_metadata =
      setMetadata s.dynamic_metadata
        (dynamicDataKey s.config_.filter_direction_) v := by
  by_cases h : data.length < s.proxy_data_length_
  · exact Or.inl (by simp [onDataProxy, tryReadProxyData, h])
  · cases hd : deserFields (data.take s.proxy_data_length_) with
    | none => exact Or.inl (by simp [onDataProxy, tryReadProxyData, h, hd])
    | some v =>
        exact Or.inr ⟨v, by simp [onDataProxy, tryReadProxyData, h, hd]⟩

theorem onDataHeader_metadata_key (s : FilterState) (data : List Nat) :
    (onDataHeader s data).state.dynamic_metadata = s.dynamic_metadata ∨
    ∃ v, (onDataHeader s data).state.dynamic_metadata =
      setMetadata s.dynamic_metadata
        (dynamicDataKey s.config_.filter_direction_) v := by
  by_cases h8 : data.length < InitialHeaderSize
  · exact Or.inl (by simp [onDataHeader, tryReadInitialProxyHeader, h8])
  · by_cases hm : decNat32 data = MagicNumber
    · have hh : tryReadInitialProxyHeader s data =
          ({ s with
              conn_state_ := .ReadingProxyHeader
              proxy_data_length_ := decNat32 (data.drop 4) },
            data.drop InitialHeaderSize) := by
        simp [tryReadInitialProxyHeader, h8, hm]
      simp only [onDataHeader, hh]
      exact onDataProxy_metadata_key
        { s with
            conn_state_ := .ReadingProxyHeader
            proxy_data_length_ := decNat32 (data.drop 4) }
        (data.drop InitialHeaderSize)
    · exact Or.inl (by
        simp [onDataHeader, tryReadInitialProxyHeader, h8, hm])

theorem onData_metadata_key (s : FilterState) (data : List Nat) :
    (onData s data).state.dynamic_metadata = s.dynamic_metadata ∨
    ∃ v, (onData s data).state.dynamic_metadata =
      setMetadata s.dynamic_metadata
        (dynamicDataKey s.config_.filter_direction_) v := by
  cases hc : s.conn_state_
  case ReadingInitialHeader =>
      simp only [onData, hc]
      exact onDataHeader_metadata_key s data
  case NeedMoreDataInitialHeader =>
      simp only [onData, hc]
      exact onDataHeader_metadata_key s data
  case ReadingProxyHeader =>
      simp only [onData, hc]
      exact onDataProxy_metadata_key s data
  case NeedMoreDataProxyHeader =>
      simp only [onData, hc]
      exact onDataProxy_metadata_key s data
  all_goals exact Or.inl (by simp [onData, hc])

theorem tryReadInitialProxyHeader_config (s : FilterState) (data : List Nat) :
    (tryReadInitialProxyHeader s data).1.config_ = s.config_ := by
  rw [tryReadInitialProxyHeader]
  split_ifs <;> rfl

theorem tryReadProxyData_config (s : FilterState) (data : List Nat) :
    (tryReadProxyData s data).1.config_ = s.config_ := by
  rw [tryReadProxyData]
  split
  · rfl
  · split <;> rfl

theorem onDataProxy_config (s : FilterState) (data : List Nat) :
    (onDataProxy s data).state.config_ = s.config_ := by
  simp only [onDataProxy]
  split <;> exact tryReadProxyData_config s data

theorem onDataHeader_config (s : FilterState) (data : List Nat) :
    (onDataHeader s data).state.config_ = s.config_ := by
  simp only [onDataHeader]
  split <;>
    first
      | exact tryReadInitialProxyHeader_config s data
      | (rw [onDataProxy_config]; exact tryReadInitialProxyHeader_config s data)

theorem onData_config (s : FilterState) (data : List Nat) :
    (onData s data).state.config_ = s.config_ := by
  cases hc : s.conn_state_ <;> simp only [onData, hc]
  all_goals
    first
      | exact onDataHeader_config s data
      | exact onDataProxy_config s data

theorem onWrite_config (s : FilterState) (data : List Nat) :
    (onWrite s data).1.config_ = s.config_ := by
  cases hc : s.conn_state_ <;> simp [onWrite, hc]

theorem onNewConnection_config (s : FilterState) (alpn : String) :
    (onNewConnection s alpn).config_ = s.config_ := by
  cases hc : s.conn_state_
  case ConnProtocolNotRead =>
      by_cases halpn : alpn = s.config_.protocol_ <;>
        simp [onNewConnection, hc, halpn]
  all_goals simp [onNewConnection, hc]

theorem onWrite_direction (s : FilterState) (d : FilterDirection)
    (data : List Nat) :
    (onWrite (withDirection d s) data).2 = (onWrite s data).2 ∧
    (onWrite (withDirection d s) data).1.conn_state_ =
      (onWrite s data).1.conn_state_ := by
  cases hc : s.conn_state_ <;> simp [onWrite, hc, withDirection]

theorem onNewConnection_direction (s : FilterState) (d : FilterDirection)
    (alpn : String) :
    (onNewConnection (withDirection d s) alpn).conn_state_ =
      (onNewConnection s alpn).conn_state_ ∧
    (onNewConnection (withDirection d s) alpn).stats =
      (onNewConnection s alpn).stats := by
  cases hc : s.conn_state_
  case ConnProtocolNotRead =>
      by_cases halpn : alpn = s.config_.protocol_ <;>
        simp [onNewConnection, hc, halpn, withDirection]
  all_goals simp [onNewConnection, hc, withDirection]

/-- Claim C8: the configured `FilterDirection` is set once at construction and
its only runtime effect is selecting which side-channel key the decoded peer
metadata is stored under (`Downstream` the downstream key, `Upstream` the
upstream key); every other observable of the filter is identical for the two
direction values. -/
theorem C8_direction_selects_key (s : FilterState) (d : FilterDirection)
    (data : List Nat) (alpn : String) :
    dynamicDataKey .Downstream = DownstreamDynamicDataKey ∧
    dynamicDataKey .Upstream = UpstreamDynamicDataKey ∧
    (∀ cfg lm, (mkMetadataExchangeFilter cfg lm).config_ = cfg) ∧
    (onData s data).state.config_ = s.config_ ∧
    (onWrite s data).1.config_ = s.config_ ∧
    (onNewConnection s alpn).config_ = s.config_ ∧
    ((onData s data).state.dynamic_metadata = s.dynamic_metadata ∨
      ∃ v, (onData s data).state.dynamic_metadata =
        setMetadata s.dynamic_metadata
          (dynamicDataKey s.config_.filter_direction_) v) ∧
    sameObservables (onData (withDirection d s) data) (onData s data) ∧
    (onWrite (withDirection d s) data).2 = (onWrite s data).2 ∧
    (onWrite (withDirection d s) data).1.conn_state_ =
      (onWrite s data).1.conn_state_ ∧
    (onNewConnection (withDirection d s) alpn).conn_state_ =
      (onNewConnection s alpn).conn_state_ ∧
    (onNewConnection (withDirection d s) alpn).stats =
      (onNewConnection s alpn).stats :=
  ⟨rfl, rfl, fun _ _ => rfl, onData_config s data, onWrite_config s data,
    onNewConnection_config s alpn, onData_metadata_key s data,
    onData_direction s d data, (onWrite_direction s d data).1,
    (onWrite_direction s d data).2, (onNewConnection_direction s d alpn).1,
    (onNewConnection_direction s d alpn).2⟩

/-! ### Counter budget of each event -/

theorem tryReadInitialProxyHeader_statsTotal (s : FilterState) (data : List Nat) :
    statsTotal (tryReadInitialProxyHeader s data).1.stats ≤
      statsTotal s.stats + 1 := by
  rw [tryReadInitialProxyHeader]
  split_ifs <;> (simp [statsTotal]; try omega)

theorem tryReadProxyData_statsTotal (s : FilterState) (data : List Nat) :
    statsTotal (tryReadProxyData s data).1.stats ≤ statsTotal s.stats + 1 := by
  rw [tryReadProxyData]
  split
  · simp
  · split <;> simp [statsTotal] <;> omega

theorem onDataProxy_statsTotal (s : FilterState) (data : List Nat) :
    statsTotal (onDataProxy s data).state.stats ≤ statsTotal s.stats + 1 := by
  simp only [onDataProxy]
  split <;> exact tryReadProxyData_statsTotal s data

theorem tryReadInitialProxyHeader_success_stats (s : FilterState)
    (data : List Nat)
    (h : (tryReadInitialProxyHeader s data).1.conn_state_ = .ReadingProxyHeader) :
    (tryReadInitialProxyHeader s data).1.stats = s.stats := by
  by_cases h1 : data.length < InitialHeaderSize
  · rw [tryReadInitialProxyHeader, if_pos h1] at h
    simp at h
  · by_cases hm : decNat32 data ≠ MagicNumber
    · rw [tryReadInitialProxyHeader, if_neg h1, if_pos hm] at h
      simp at h
    · rw [tryReadInitialProxyHeader, if_neg h1, if_neg hm]

theorem onDataHeader_statsTotal (s : FilterState) (data : List Nat) :
    statsTotal (onDataHeader s data).state.stats ≤ statsTotal s.stats + 1 := by
  simp only [onDataHeader]
  split
  · exact tryReadInitialProxyHeader_statsTotal s data
  · rename_i heq
    calc statsTotal (onDataProxy (tryReadInitialProxyHeader s data).1
          (tryReadInitialProxyHeader s data).2).state.stats ≤
        statsTotal (tryReadInitialProxyHeader s data).1.stats + 1 :=
          onDataProxy_statsTotal _ _
      _ = statsTotal s.stats + 1 := by
          rw [tryReadInitialProxyHeader_success_stats s data heq]
  · exact tryReadInitialProxyHeader_statsTotal s data

theorem onData_statsTotal (s : FilterState) (data : List Nat) :
    statsTotal (onData s data).state.stats ≤ statsTotal s.stats + 1 := by
  cases hc : s.conn_state_ <;> simp only [onData, hc]
  all_goals
    first
      | exact onDataHeader_statsTotal s data
      | exact onDataProxy_statsTotal s data
      | omega

theorem onWrite_stats (s : FilterState) (data : List Nat) :
    (onWrite s data).1.stats = s.stats := by
  cases hc : s.conn_state_ <;> simp [onWrite, hc]

theorem onNewConnection_statsTotal (s : FilterState) (alpn : String) :
    statsTotal (onNewConnection s alpn).stats ≤ statsTotal s.stats + 1 := by
  cases hc : s.conn_state_
  case ConnProtocolNotRead =>
      by_cases halpn : alpn = s.config_.protocol_ <;>
        simp [onNewConnection, hc, halpn, statsTotal] <;> omega
  all_goals simp [onNewConnection, hc]

/-- Claim C9: every per-event handler is a total function over all inputs; each
event increments the counters by at most one in total; and once a failure has
made the machine `Invalid`, every later buffer passes through unmodified — the
protocol layer itself never terminates the connection. -/
theorem C9_total_and_degrading (s : FilterState) (data data2 : List Nat)
    (alpn : String) :
    statsTotal (onData s data).state.stats ≤ statsTotal s.stats + 1 ∧
    statsTotal (onWrite s data).1.stats = statsTotal s.stats ∧
    statsTotal (onNewConnection s alpn).stats ≤ statsTotal s.stats + 1 ∧
    ((onData s data).state.conn_state_ = .Invalid →
      onData (onData s data).state data2 = ⟨(onData s data).state, data2, []⟩) ∧
    ((onNewConnection s alpn).conn_state_ = .Invalid →
      onData (onNewConnection s alpn) data2 =
        ⟨onNewConnection s alpn, data2, []⟩) :=
  ⟨onData_statsTotal s data, by rw [onWrite_stats],
    onNewConnection_statsTotal s alpn,
    fun h => onData_invalid _ _ h, fun h => onData_invalid _ _ h⟩

theorem C9_total_and_degrading_witness :
    onData (onData egReading [0, 0, 0, 0, 0, 0, 0, 0]).state [7] =
      ⟨(onData egReading [0, 0, 0, 0, 0, 0, 0, 0]).state, [7], []⟩ ∧
    statsTotal (onData egReading [0, 0, 0, 0, 0, 0, 0, 0]).state.stats ≤
      statsTotal egReading.stats + 1 := by
  have h := C9_total_and_degrading egReading [0, 0, 0, 0, 0, 0, 0, 0] [7] "x"
  exact ⟨h.2.2.2.1 (by decide), h.1⟩

/-- Claim C10: every newly constructed per-connection filter instance starts in
`ConnProtocolNotRead` with `proxy_data_length_ = 0`, before any read or write
event is delivered; and `proxy_data_length_` changes only when a valid initial
header is decoded, at which point it holds the declared payload length. -/
theorem C10_initial_state (cfg : MetadataExchangeConfig) (lm : NodeMetadata) :
    (mkMetadataExchangeFilter cfg lm).conn_state_ = .ConnProtocolNotRead ∧
    (mkMetadataExchangeFilter cfg lm).proxy_data_length_ = 0 ∧
    (∀ s : FilterState, ∀ alpn,
      (onNewConnection s alpn).proxy_data_length_ = s.proxy_data_length_) ∧
    (∀ s : FilterState, ∀ data,
      (onWrite s data).1.proxy_data_length_ = s.proxy_data_length_) ∧
    (∀ s : FilterState, ∀ data,
      (onData s data).state.proxy_data_length_ = s.proxy_data_length_ ∨
      ((s.conn_state_ = .ReadingInitialHeader ∨
          s.conn_state_ = .NeedMoreDataInitialHeader) ∧
        InitialHeaderSize ≤ data.length ∧ decNat32 data = MagicNumber ∧
        (onData s data).state.proxy_data_length_ = decNat32 (data.drop 4))) := by
  refine ⟨rfl, rfl, ?_, ?_, ?_⟩
  · intro s alpn
    cases hc : s.conn_state_
    case ConnProtocolNotRead =>
        by_cases halpn : alpn = s.config_.protocol_ <;>
          simp [onNewConnection, hc, halpn]
    all_goals simp [onNewConnection, hc]
  · intro s data
    cases hc : s.conn_state_ <;> simp [onWrite, hc]
  · intro s data
    have hproxy : ∀ (t : FilterState) (d2 : List Nat),
        (onDataProxy t d2).state.proxy_data_length_ = t.proxy_data_length_ := by
      intro t d2
      by_cases h : d2.length < t.proxy_data_length_
      · simp [onDataProxy, tryReadProxyData, h]
      · cases hd : deserFields (d2.take t.proxy_data_length_) <;>
          simp [onDataProxy, tryReadProxyData, h, hd]
    have hheader :
        (onDataHeader s data).state.proxy_data_length_ = s.proxy_data_length_ ∨
          (InitialHeaderSize ≤ data.length ∧ decNat32 data = MagicNumber ∧
            (onDataHeader s data).state.proxy_data_length_ =
              decNat32 (data.drop 4)) := by
      by_cases h8 : data.length < InitialHeaderSize
      · exact Or.inl (by simp [onDataHeader, tryReadInitialProxyHeader, h8])
      · by_cases hm : decNat32 data = MagicNumber
        · refine Or.inr ⟨by omega, hm, ?_⟩
          have hh : tryReadInitialProxyHeader s data =
              ({ s with
                  conn_state_ := .ReadingProxyHeader
                  proxy_data_length_ := decNat32 (data.drop 4) },
                data.drop InitialHeaderSize) := by
            simp [tryReadInitialProxyHeader, h8, hm]
          simp only [onDataHeader, hh]
          rw [hproxy _ (data.drop InitialHeaderSize)]
        · exact Or.inl (by
            simp [onDataHeader, tryReadInitialProxyHeader, h8, hm])
    cases hc : s.conn_state_
    case ReadingInitialHeader =>
        rw [onData_eq_header s data (Or.inl hc)]
        exact hheader.imp (fun h => h) (fun h => ⟨Or.inl rfl, h⟩)
    case NeedMoreDataInitialHeader =>
        rw [onData_eq_header s data (Or.inr hc)]
        exact hheader.imp (fun h => h) (fun h => ⟨Or.inr rfl, h⟩)
    case ReadingProxyHeader =>
        rw [onData_eq_proxy s data (Or.inl hc)]
        exact Or.inl (hproxy s data)
    case NeedMoreDataProxyHeader =>
        rw [onData_eq_proxy s data (Or.inr hc)]
        exact Or.inl (hproxy s data)
    all_goals exact Or.inl (by simp [onData, hc])

end MetadataExchange
